import Mathlib

/-!
Formal model of the `obsidian-vault-changelog` plugin (src/main.ts,
src/settings.ts), shallowly embedded in Lean 4.  Pure pipeline pieces
(file selection, changelog rendering) become Lean functions; the vault
file system and the plugin's event machinery become explicit state
passing and a step relation.  JavaScript numbers that the plugin stores
in settings are modelled as rationals, and the relevant fragments of the
ECMAScript builtins the code relies on (`Number`, `Array.prototype.sort`
stability, `Array.prototype.slice` index truncation) are modelled
explicitly where the code uses them.
-/

namespace VaultChangelog

/-- File statistics exposed by the host, `TFile.stat` (only `mtime`,
the modification time in epoch milliseconds, is read by the plugin). -/
structure FileStats where
  mtime : ℤ
deriving DecidableEq, Repr

/-- A vault file reference as exposed by the host API (`TFile`): path,
basename (display name without directory or extension), extension, and
file statistics. The plugin only reads these fields. -/
structure TFile where
  path : String
  basename : String
  extension : String
  stat : FileStats
deriving DecidableEq, Repr

/-- Plugin settings, from the `ChangelogSettings` interface in
src/settings.ts.  `maxRecentFiles` is a JavaScript number, so it is
modelled as a rational (the settings handler can store non-integral
values, see `maxRecentFilesOnChange`).  The field `useWikiLinks` is not
declared in the TypeScript interface and is absent from
`DEFAULT_SETTINGS`, but src/main.ts reads `this.settings.useWikiLinks`;
at runtime the absent field is `undefined`, which is falsy, so it is
modelled as a `Bool` that defaults to `false`. -/
structure ChangelogSettings where
  autoUpdate : Bool
  changelogPath : String
  datetimeFormat : String
  maxRecentFiles : ℚ
  excludedFolders : List String
  useWikiLinks : Bool := false
deriving DecidableEq, Repr

/-- `DEFAULT_SETTINGS` from src/settings.ts (no `useWikiLinks` key is
present there, hence the falsy default). -/
def DEFAULT_SETTINGS : ChangelogSettings where
  autoUpdate := false
  changelogPath := "Changelog.md"
  datetimeFormat := "YYYY-MM-DD[T]HHmm"
  maxRecentFiles := 25
  excludedFolders := []

/-- Modelled from the spec: `Vault.getMarkdownFiles` is part of the
host application's file-system abstraction (not in this repository).
Per its contract it returns exactly the vault files whose extension is
`md`. -/
def getMarkdownFiles (vaultFiles : List TFile) : List TFile :=
  vaultFiles.filter (fun file => file.extension == "md")

/-- ECMAScript `String.prototype.startsWith`: a literal prefix test on
the character sequence (JavaScript checks code units; on the valid
strings the plugin handles this coincides with the character level, on
which it is modelled here). -/
def jsStartsWith (s pre : String) : Bool :=
  pre.data.isPrefixOf s.data

/-- The filter predicate of `getRecentlyEditedFiles` (src/main.ts
lines 178-192): drop the changelog file itself (exact path equality)
and any file whose path starts with one of the excluded folder
strings (literal prefix match via `String.prototype.startsWith`,
modelled by `jsStartsWith`). -/
def keepFile (s : ChangelogSettings) (file : TFile) : Bool :=
  if file.path == s.changelogPath then
    false
  else if s.excludedFolders.any (fun folder => jsStartsWith file.path folder) then
    false
  else
    true

/-- ECMAScript `ToIntegerOrInfinity` on a finite number: truncation
toward zero.  Used by `Array.prototype.slice` on its index argument. -/
def jsTrunc (q : ℚ) : ℤ :=
  if q < 0 then -⌊-q⌋ else ⌊q⌋

/-- The element count kept by `arr.slice(0, q)` for an array of length
`len`: a negative (truncated) index counts from the end, otherwise the
truncated value itself (`List.take` clamps at `len` like `slice`). -/
def jsSliceCount (len : ℕ) (q : ℚ) : ℕ :=
  if jsTrunc q < 0 then ((len : ℤ) + jsTrunc q).toNat else (jsTrunc q).toNat

/-- The comparator `(a, b) => b.stat.mtime - a.stat.mtime` of
src/main.ts line 193, as the total preorder it induces on files
(`comparator(a, b) <= 0`, i.e. most recent first). -/
def mtimeDescLE (a b : TFile) : Bool :=
  decide (b.stat.mtime ≤ a.stat.mtime)

/-- The intermediate value `getMarkdownFiles().filter(...).sort(...)`
of src/main.ts lines 176-193, before the final `slice`. -/
def sortedCandidates (vaultFiles : List TFile) (s : ChangelogSettings) :
    List TFile :=
  ((getMarkdownFiles vaultFiles).filter (keepFile s)).mergeSort mtimeDescLE

/-- `getRecentlyEditedFiles` from src/main.ts lines 175-195:
markdown files, filtered, sorted by descending modification time with
a stable sort (`Array.prototype.sort` is stable per ES2019, modelled
by `List.mergeSort`), and truncated by `slice(0, maxRecentFiles)`. -/
def getRecentlyEditedFiles (vaultFiles : List TFile) (s : ChangelogSettings) :
    List TFile :=
  (sortedCandidates vaultFiles s).take
    (jsSliceCount (sortedCandidates vaultFiles s).length s.maxRecentFiles)

/-- One changelog entry, the body of the `forEach` loop in
`generateChangelog` (src/main.ts lines 151-162).  `momentFormat`
stands for the host-provided `window.moment(mtime).format(fmt)`
timestamp renderer.  The separator between the timestamp and the file
name is the two characters U+00C2 U+00B7 (`Â·`), exactly the bytes
found in the template literal of src/main.ts line 161. -/
def entryLine (momentFormat : ℤ → String → String) (s : ChangelogSettings)
    (file : TFile) : String :=
  let formattedTime := momentFormat file.stat.mtime s.datetimeFormat
  let fileName := if s.useWikiLinks then "[[" ++ file.basename ++ "]]" else file.basename
  "- " ++ formattedTime ++ " Â· " ++ fileName ++ "\n"

/-- The accumulation loop of `generateChangelog` (src/main.ts lines
150-162), rendering an already-selected ordered list of files. -/
def generateChangelogBody (momentFormat : ℤ → String → String)
    (s : ChangelogSettings) (recentFiles : List TFile) : String :=
  recentFiles.foldl (fun changelogContent file =>
    changelogContent ++ entryLine momentFormat s file) ""

/-- `generateChangelog` from src/main.ts lines 147-165: select the
recently edited files and render them. -/
def generateChangelog (momentFormat : ℤ → String → String)
    (s : ChangelogSettings) (vaultFiles : List TFile) : String :=
  generateChangelogBody momentFormat s (getRecentlyEditedFiles vaultFiles s)

/-- An entity occupying a vault path: a regular file (`TFile`, carrying
its text content) or anything else (`TFolder`). -/
inductive VaultEntry where
  | file (content : String)
  | folder
deriving DecidableEq, Repr

/-- The vault file system, as the association of paths to entities. -/
abbrev Vault := List (String × VaultEntry)

/-- `Vault.getAbstractFileByPath`: look up the entity at a path. -/
def getAbstractFileByPath (v : Vault) (path : String) : Option VaultEntry :=
  List.lookup path v

/-- `Vault.create(path, "")`: add an empty file at a (previously
absent) path. -/
def vaultCreate (v : Vault) (path : String) : Vault :=
  (path, VaultEntry.file "") :: v

/-- `Vault.modify(file, content)`: replace the content of the file at
a path. -/
def vaultModify (v : Vault) (path content : String) : Vault :=
  v.map (fun e => if e.1 == path then (e.1, VaultEntry.file content) else e)

/-- `writeToFile` from src/main.ts lines 208-218: look up the path;
if nothing is there, create an empty file first; if the entity is a
regular file, overwrite its contents; otherwise emit a `Notice` (the
second component) and leave the vault unchanged. -/
def writeToFile (v : Vault) (path content : String) : Vault × Option String :=
  match getAbstractFileByPath v path with
  | none =>
      -- `create` returns a `TFile`, so the subsequent instanceof
      -- check succeeds and the new empty file is overwritten
      (vaultModify (vaultCreate v path) path content, none)
  | some (VaultEntry.file _) =>
      (vaultModify v path content, none)
  | some VaultEntry.folder =>
      (v, some ("Could not update changelog at path: " ++ path))

/-- The full pipeline `updateChangelog` (src/main.ts lines 138-141):
generate the changelog text and write it at `changelogPath`. -/
def updateChangelog (momentFormat : ℤ → String → String)
    (s : ChangelogSettings) (vaultFiles : List TFile) (v : Vault) :
    Vault × Option String :=
  writeToFile v s.changelogPath (generateChangelog momentFormat s vaultFiles)

/-- Numeric value of a digit list, most significant first. -/
def digitsVal (cs : List Char) : ℕ :=
  cs.foldl (fun a c => a * 10 + (c.toNat - 48)) 0

/-- Decimal-literal shape recognised by ECMAScript `Number(string)`:
optional sign, digits with at most one decimal point.  Returns
`(negative, integer digits, fraction digits, fraction length)`;
`none` corresponds to `NaN`.  The empty string converts to `0`. -/
def jsParseDec (s : String) : Option (Bool × ℕ × ℕ × ℕ) :=
  let cs := s.data
  if cs.isEmpty then some (false, 0, 0, 0) else
  let signed : Bool × List Char :=
    match cs with
    | '-' :: rest => (true, rest)
    | '+' :: rest => (false, rest)
    | _ => (false, cs)
  let body := signed.2
  if body.isEmpty then none
  else if body.count '.' == 0 then
    if body.all Char.isDigit then some (signed.1, digitsVal body, 0, 0) else none
  else if body.count '.' == 1 then
    let ip := body.takeWhile (fun c => c ≠ '.')
    let fp := (body.dropWhile (fun c => c ≠ '.')).tail
    if ip.all Char.isDigit && fp.all Char.isDigit && !(ip.isEmpty && fp.isEmpty) then
      some (signed.1, digitsVal ip, digitsVal fp, fp.length)
    else none
  else none

/-- The rational denoted by a parsed decimal literal. -/
def decValue (p : Bool × ℕ × ℕ × ℕ) : ℚ :=
  let v : ℚ := (p.2.1 : ℚ) + (p.2.2.1 : ℚ) / (10 : ℚ) ^ p.2.2.2
  if p.1 then -v else v

/-- ECMAScript `Number(string)` on the decimal-literal fragment the
settings field can contain (`none` models `NaN`; leading/trailing
whitespace, hex, exponent and `Infinity` forms are outside the
modelled fragment). -/
def jsNumber (s : String) : Option ℚ :=
  (jsParseDec s).map decValue

/-- The `onChange` handler of the "Max recent files" text field
(src/settings.ts lines 179-192): `Number(value)`; reject `NaN` and
values below 1, setting the displayed text back to the stored value
(second component `true` models the `text.setValue(...)` revert);
otherwise store the number.  Returns (new stored value, reverted?). -/
def maxRecentFilesOnChange (stored : ℚ) (value : String) : ℚ × Bool :=
  match jsNumber value with
  | none => (stored, true)
  | some numValue =>
      if numValue < 1 then (stored, true) else (numValue, false)

/-- Plugin runtime state for the auto-update machinery: the settings
object and how many times the trio of vault event listeners
(modify/delete/rename) has been registered via `registerEvent`. -/
structure PluginState where
  settings : ChangelogSettings
  vaultHandlers : ℕ
deriving DecidableEq, Repr

/-- `enableAutoUpdate` from src/main.ts lines 90-119: when
`settings.autoUpdate` is set, register the vault event listeners
(nothing is ever unregistered before plugin unload). -/
def enableAutoUpdate (st : PluginState) : PluginState :=
  if st.settings.autoUpdate then
    { st with vaultHandlers := st.vaultHandlers + 1 }
  else
    st

/-- Plugin state after `onload` (src/main.ts lines 34-50). -/
def onloadPlugin (s : ChangelogSettings) : PluginState :=
  enableAutoUpdate { settings := s, vaultHandlers := 0 }

/-- The `onChange` handler of the "Auto update" toggle
(src/settings.ts lines 120-131): store the new value and, only when
turning it on, call `enableAutoUpdate`.  Nothing is done on turning
it off. -/
def setAutoUpdateSetting (st : PluginState) (value : Bool) : PluginState :=
  let st1 := { st with settings := { st.settings with autoUpdate := value } }
  if value then enableAutoUpdate st1 else st1

/-- Whether a vault change/delete/rename event for `file` leads (after
the debounce delay) to a run of `updateChangelog`: some listener must
be registered, and the debounced `onVaultChange` (src/main.ts lines
126-130) runs the pipeline when the file's path differs from
`changelogPath`.  Note that neither the listeners nor `onVaultChange`
consult `settings.autoUpdate`. -/
def autoTriggersUpdate (st : PluginState) (file : TFile) : Bool :=
  (st.vaultHandlers != 0) && (file.path != st.settings.changelogPath)

/-- The debounce gate built by wrapping `onVaultChange` in the host's
trailing-edge `debounce(_, 200)` (src/main.ts line 48).  Modelled from
the spec: the debounce implementation itself lives in the host API;
per the spec it is a two-state machine, `idle` or `pending` with the
remaining milliseconds and the argument of the latest call (only the
last event of a burst survives). -/
inductive GateState where
  | idle
  | pending (remaining : ℕ) (lastPath : String)
deriving DecidableEq, Repr

/-- One millisecond of gate evolution.  `ev` is the path of a file
event delivered during this tick (if any): an event (re)arms the timer
to the full 200 ms and records the path.  When the timer reaches zero
the debounced `onVaultChange` body runs: the pipeline fires exactly
when the recorded path differs from `changelogPath` (the path check of
src/main.ts lines 126-130 sits inside the debounced callback).
Returns the next state and whether the pipeline fired this tick. -/
def gateStep (changelogPath : String) (st : GateState) (ev : Option String) :
    GateState × Bool :=
  let armed := match ev with
    | some p => GateState.pending 200 p
    | none => st
  match armed with
  | GateState.idle => (GateState.idle, false)
  | GateState.pending 0 p => (GateState.idle, p != changelogPath)
  | GateState.pending (n + 1) p => (GateState.pending n p, false)

/-- Run the gate over a timeline of ticks, counting pipeline runs. -/
def gateRun (changelogPath : String) (st : GateState)
    (ticks : List (Option String)) : GateState × ℕ :=
  match ticks with
  | [] => (st, 0)
  | ev :: rest =>
      let stepped := gateStep changelogPath st ev
      let tail := gateRun changelogPath stepped.1 rest
      (tail.1, (if stepped.2 then 1 else 0) + tail.2)

/-- A burst tail: after each of the events in `gaps` (separated from
its predecessor by the given number of quiet milliseconds) a final
stretch of `tail` quiet milliseconds. -/
def burstCore (gaps : List (ℕ × String)) (tail : ℕ) : List (Option String) :=
  match gaps with
  | [] => List.replicate tail none
  | (g, p) :: rest => List.replicate g none ++ some p :: burstCore rest tail

/-- A full burst timeline: `lead` quiet ticks, a first event for
`p0`, then the remaining events of the burst and the quiet tail. -/
def burstTimeline (lead : ℕ) (p0 : String) (gaps : List (ℕ × String))
    (tail : ℕ) : List (Option String) :=
  List.replicate lead none ++ some p0 :: burstCore gaps tail

/-- The path of the last event of a burst. -/
def lastEventPath (p0 : String) (gaps : List (ℕ × String)) : String :=
  match gaps with
  | [] => p0
  | (_, p) :: rest => lastEventPath p rest

/-- A sample markdown file used to instantiate the general theorems. -/
def fileA : TFile :=
  { path := "A.md", basename := "A", extension := "md", stat := { mtime := 100 } }

/-- A constant stand-in for the host timestamp formatter. -/
def sampleMoment (_ : ℤ) (_ : String) : String :=
  "2024-01-28T1430"

/-- Default settings with `useWikiLinks` turned on. -/
def wikiSettings : ChangelogSettings :=
  { DEFAULT_SETTINGS with useWikiLinks := true }

/-! Helper lemmas about the file selector. -/

lemma mtimeDescLE_trans :
    ∀ a b c, mtimeDescLE a b = true → mtimeDescLE b c = true → mtimeDescLE a c = true := by
  intro a b c hab hbc
  simp only [mtimeDescLE, decide_eq_true_eq] at *
  exact le_trans hbc hab

lemma mtimeDescLE_total : ∀ a b, (mtimeDescLE a b || mtimeDescLE b a) = true := by
  intro a b
  simp only [mtimeDescLE, Bool.or_eq_true, decide_eq_true_eq]
  exact le_total _ _

lemma mem_sortedCandidates {f : TFile} {vf : List TFile} {s : ChangelogSettings} :
    f ∈ sortedCandidates vf s ↔ f ∈ getMarkdownFiles vf ∧ keepFile s f = true := by
  simp [sortedCandidates, List.mem_mergeSort, List.mem_filter]

lemma mem_getRecentlyEditedFiles {f : TFile} {vf : List TFile} {s : ChangelogSettings}
    (h : f ∈ getRecentlyEditedFiles vf s) :
    f ∈ getMarkdownFiles vf ∧ keepFile s f = true :=
  mem_sortedCandidates.mp (List.mem_of_mem_take h)

lemma keepFile_eq_true {s : ChangelogSettings} {f : TFile} (h : keepFile s f = true) :
    f.path ≠ s.changelogPath ∧
      ∀ folder ∈ s.excludedFolders, jsStartsWith f.path folder = false := by
  by_cases h1 : f.path == s.changelogPath
  · simp [keepFile, h1] at h
  · by_cases h2 : s.excludedFolders.any (fun folder => jsStartsWith f.path folder)
    · simp [keepFile, h1, h2] at h
    · refine ⟨by simpa using h1, ?_⟩
      intro folder hm
      have h2' : s.excludedFolders.any (fun folder => jsStartsWith f.path folder) = false :=
        Bool.not_eq_true _ ▸ h2
      simpa using List.any_eq_false.mp h2' folder hm

lemma selector_singleton : getRecentlyEditedFiles [fileA] DEFAULT_SETTINGS = [fileA] := by
  have h1 : sortedCandidates [fileA] DEFAULT_SETTINGS = [fileA] := by
    simp [sortedCandidates, getMarkdownFiles, keepFile, DEFAULT_SETTINGS, fileA]
  rw [getRecentlyEditedFiles, h1]
  norm_num [jsSliceCount, jsTrunc, DEFAULT_SETTINGS]

/-- C1: for every list of vault documents and every configuration, the
file selector's result never contains the document at
`config.changelogPath` and never contains a document whose path starts
with any string in `config.excludedFolders` (literal prefix match). -/
theorem selector_excludes_changelog_and_folders (vaultFiles : List TFile)
    (s : ChangelogSettings) (f : TFile)
    (hf : f ∈ getRecentlyEditedFiles vaultFiles s) :
    f.path ≠ s.changelogPath ∧
      ∀ folder ∈ s.excludedFolders, jsStartsWith f.path folder = false :=
  keepFile_eq_true (mem_getRecentlyEditedFiles hf).2

theorem selector_excludes_changelog_and_folders_witness :
    fileA ∈ getRecentlyEditedFiles [fileA] DEFAULT_SETTINGS ∧
      (fileA.path ≠ DEFAULT_SETTINGS.changelogPath ∧
        ∀ folder ∈ DEFAULT_SETTINGS.excludedFolders,
          jsStartsWith fileA.path folder = false) :=
  have hm : fileA ∈ getRecentlyEditedFiles [fileA] DEFAULT_SETTINGS := by
    simp [selector_singleton]
  ⟨hm, selector_excludes_changelog_and_folders [fileA] DEFAULT_SETTINGS fileA hm⟩

/-- C10: the selector draws candidates only from the vault's markdown
files, so every selected document has extension `md`. -/
theorem selector_only_markdown (vaultFiles : List TFile) (s : ChangelogSettings)
    (f : TFile) (hf : f ∈ getRecentlyEditedFiles vaultFiles s) :
    f.extension = "md" := by
  have h1 := (mem_getRecentlyEditedFiles hf).1
  exact (by simpa [getMarkdownFiles, List.mem_filter] using h1 :
    f ∈ vaultFiles ∧ f.extension = "md").2

theorem selector_only_markdown_witness :
    fileA ∈ getRecentlyEditedFiles [fileA] DEFAULT_SETTINGS ∧ fileA.extension = "md" :=
  have hm : fileA ∈ getRecentlyEditedFiles [fileA] DEFAULT_SETTINGS := by
    simp [selector_singleton]
  ⟨hm, selector_only_markdown [fileA] DEFAULT_SETTINGS fileA hm⟩

/-- C2: for every list of vault documents and every configuration
satisfying the data-model invariant `maxRecentFiles ≥ 1`, the selector
returns at most `maxRecentFiles` entries, sorted by modification time
in non-increasing order, and documents with equal modification time
keep their relative input order (the filtered output is an
order-preserving sublist of the correspondingly filtered input). -/
theorem selector_bounded_sorted_stable (vaultFiles : List TFile)
    (s : ChangelogSettings) (h : 1 ≤ s.maxRecentFiles) :
    (((getRecentlyEditedFiles vaultFiles s).length : ℚ) ≤ s.maxRecentFiles) ∧
    (getRecentlyEditedFiles vaultFiles s).Pairwise
      (fun a b => b.stat.mtime ≤ a.stat.mtime) ∧
    ∀ t : ℤ,
      ((getRecentlyEditedFiles vaultFiles s).filter
          (fun f => f.stat.mtime == t)).Sublist
        (vaultFiles.filter (fun f => f.stat.mtime == t)) := by
  have hq0 : ¬ s.maxRecentFiles < 0 := not_lt.mpr (by linarith)
  have hfl : (1 : ℤ) ≤ ⌊s.maxRecentFiles⌋ := Int.le_floor.mpr (by exact_mod_cast h)
  refine ⟨?_, ?_, ?_⟩
  · have hcount :
        jsSliceCount (sortedCandidates vaultFiles s).length s.maxRecentFiles =
          ⌊s.maxRecentFiles⌋.toNat := by
      simp only [jsSliceCount, jsTrunc, hq0, if_false]
      rw [if_neg (by omega)]
    have hlen : (getRecentlyEditedFiles vaultFiles s).length ≤ ⌊s.maxRecentFiles⌋.toNat := by
      rw [getRecentlyEditedFiles, hcount]
      simp [List.length_take]
    have hcast : ((⌊s.maxRecentFiles⌋.toNat : ℕ) : ℚ) ≤ s.maxRecentFiles := by
      have h1 : ((⌊s.maxRecentFiles⌋.toNat : ℤ) : ℚ) ≤ s.maxRecentFiles := by
        rw [Int.toNat_of_nonneg (by omega)]
        exact Int.floor_le _
      exact_mod_cast h1
    exact le_trans (by exact_mod_cast Nat.cast_le.mpr hlen) hcast
  · have hs := List.sorted_mergeSort mtimeDescLE_trans mtimeDescLE_total
      ((getMarkdownFiles vaultFiles).filter (keepFile s))
    have hp : (getRecentlyEditedFiles vaultFiles s).Pairwise
        (fun a b => mtimeDescLE a b = true) :=
      List.Pairwise.sublist (List.take_sublist _ _) hs
    exact hp.imp (fun hab => by simpa [mtimeDescLE] using hab)
  · intro t
    have hpw : (((getMarkdownFiles vaultFiles).filter (keepFile s)).filter
        (fun f => f.stat.mtime == t)).Pairwise (fun a b => mtimeDescLE a b = true) := by
      apply List.pairwise_of_forall_mem_list
      intro a ha b hb
      have ha' := (List.mem_filter.mp ha).2
      have hb' := (List.mem_filter.mp hb).2
      simp only [beq_iff_eq] at ha' hb'
      simp [mtimeDescLE, ha', hb']
    have hsub1 : (((getMarkdownFiles vaultFiles).filter (keepFile s)).filter
        (fun f => f.stat.mtime == t)).Sublist (sortedCandidates vaultFiles s) :=
      List.sublist_mergeSort mtimeDescLE_trans mtimeDescLE_total hpw
        (List.filter_sublist _)
    have hsub2 : (((getMarkdownFiles vaultFiles).filter (keepFile s)).filter
        (fun f => f.stat.mtime == t)).Sublist
        ((sortedCandidates vaultFiles s).filter (fun f => f.stat.mtime == t)) := by
      have h2 := hsub1.filter (fun f => f.stat.mtime == t)
      simpa [List.filter_filter, Bool.and_self] using h2
    have hperm : ((sortedCandidates vaultFiles s).filter
        (fun f => f.stat.mtime == t)).Perm
        (((getMarkdownFiles vaultFiles).filter (keepFile s)).filter
          (fun f => f.stat.mtime == t)) :=
      (List.mergeSort_perm _ mtimeDescLE).filter _
    have heq : ((getMarkdownFiles vaultFiles).filter (keepFile s)).filter
        (fun f => f.stat.mtime == t) =
        (sortedCandidates vaultFiles s).filter (fun f => f.stat.mtime == t) :=
      hsub2.eq_of_length hperm.length_eq.symm
    have h1 : ((getRecentlyEditedFiles vaultFiles s).filter
        (fun f => f.stat.mtime == t)).Sublist
        ((sortedCandidates vaultFiles s).filter (fun f => f.stat.mtime == t)) :=
      (List.take_sublist _ _).filter _
    rw [← heq] at h1
    have h2 : ((getMarkdownFiles vaultFiles).filter (keepFile s)).Sublist vaultFiles :=
      (List.filter_sublist _).trans (List.filter_sublist _)
    exact h1.trans ((h2.filter _).trans (List.Sublist.refl _))

lemma one_le_default_max : (1 : ℚ) ≤ DEFAULT_SETTINGS.maxRecentFiles := by
  norm_num [DEFAULT_SETTINGS]

theorem selector_bounded_sorted_stable_witness :
    (1 : ℚ) ≤ DEFAULT_SETTINGS.maxRecentFiles ∧
    ((((getRecentlyEditedFiles [fileA] DEFAULT_SETTINGS).length : ℚ) ≤
        DEFAULT_SETTINGS.maxRecentFiles) ∧
      (getRecentlyEditedFiles [fileA] DEFAULT_SETTINGS).Pairwise
        (fun a b => b.stat.mtime ≤ a.stat.mtime) ∧
      ∀ t : ℤ,
        ((getRecentlyEditedFiles [fileA] DEFAULT_SETTINGS).filter
            (fun f => f.stat.mtime == t)).Sublist
          ([fileA].filter (fun f => f.stat.mtime == t))) :=
  ⟨one_le_default_max,
    selector_bounded_sorted_stable [fileA] DEFAULT_SETTINGS one_le_default_max⟩

/-! Helper lemmas about the renderer. -/

/-- A second sample file, more recent than `fileA`. -/
def fileB : TFile :=
  { path := "B.md", basename := "B", extension := "md", stat := { mtime := 200 } }

lemma generateChangelogBody_acc (momentFormat : ℤ → String → String)
    (s : ChangelogSettings) :
    ∀ (l : List TFile) (acc : String),
      l.foldl (fun changelogContent file =>
          changelogContent ++ entryLine momentFormat s file) acc =
        acc ++ generateChangelogBody momentFormat s l := by
  intro l
  induction l with
  | nil => intro acc; simp [generateChangelogBody]
  | cons f fs ih =>
      intro acc
      simp only [List.foldl, generateChangelogBody]
      rw [ih (acc ++ entryLine momentFormat s f), ih ("" ++ entryLine momentFormat s f)]
      simp [String.append_assoc]

lemma generateChangelogBody_cons (momentFormat : ℤ → String → String)
    (s : ChangelogSettings) (f : TFile) (fs : List TFile) :
    generateChangelogBody momentFormat s (f :: fs) =
      entryLine momentFormat s f ++ generateChangelogBody momentFormat s fs := by
  simp only [generateChangelogBody, List.foldl]
  rw [generateChangelogBody_acc momentFormat s fs ("" ++ entryLine momentFormat s f)]
  simp [generateChangelogBody]

/-- C3: evaluating the renderer: each selected document produces, in
input order, one line ending in a newline, and the empty selection
produces the empty body; but the separator between the timestamp and
the name is the mojibake pair `Â·` (U+00C2 U+00B7) from src/main.ts
line 161, not the `·` (U+00B7) that the README example output and the
spec show. -/
theorem renderer_line_shape_mojibake_separator :
    generateChangelogBody sampleMoment wikiSettings [fileA, fileB] =
      "- 2024-01-28T1430 Â· [[A]]\n- 2024-01-28T1430 Â· [[B]]\n" ∧
    generateChangelogBody sampleMoment wikiSettings [fileA, fileB] ≠
      "- 2024-01-28T1430 · [[A]]\n- 2024-01-28T1430 · [[B]]\n" ∧
    generateChangelogBody sampleMoment wikiSettings [] = "" := by
  refine ⟨by decide, by decide, rfl⟩

/-- C4, counterexample: no configuration field produces a heading; in
particular the output for a sample selection (and for the empty
selection, which renders to `""`) does not begin with `"# Log\n\n"`,
contradicting the claim that a non-empty `changelogHeading` is
emitted before the entries. -/
theorem renderer_heading_counterexample :
    generateChangelogBody sampleMoment DEFAULT_SETTINGS [] = "" ∧
    ("# Log\n\n").data.isPrefixOf
      (generateChangelogBody sampleMoment wikiSettings [fileA]).data = false := by
  refine ⟨rfl, by decide⟩

/-- C4, amended: the settings carry no `changelogHeading` field and
the renderer never emits a heading: the rendered body is empty for an
empty selection and otherwise begins directly with the first entry
line `"- "`. -/
theorem renderer_never_emits_heading (momentFormat : ℤ → String → String)
    (s : ChangelogSettings) (files : List TFile) :
    generateChangelogBody momentFormat s files = "" ∨
      ∃ rest, generateChangelogBody momentFormat s files = "- " ++ rest := by
  cases files with
  | nil => exact Or.inl rfl
  | cons f fs =>
      refine Or.inr ?_
      rw [generateChangelogBody_cons]
      simp only [entryLine, String.append_assoc]
      exact ⟨_, rfl⟩

/-! The persistence writer. -/

lemma getAbstractFileByPath_vaultModify (v : Vault) (path c : String) :
    getAbstractFileByPath (vaultModify v path c) path =
      (getAbstractFileByPath v path).map (fun _ => VaultEntry.file c) := by
  induction v with
  | nil => rfl
  | cons e rest ih =>
      obtain ⟨q, ent⟩ := e
      simp only [vaultModify, List.map_cons]
      by_cases hq : q = path
      · subst hq
        rw [if_pos (beq_self_eq_true q)]
        simp [getAbstractFileByPath, List.lookup]
      · have hb : (q == path) = false := beq_eq_false_iff_ne.mpr hq
        have hb' : (path == q) = false := beq_eq_false_iff_ne.mpr (Ne.symm hq)
        rw [if_neg (by simp [hb])]
        simp only [getAbstractFileByPath, List.lookup, hb']
        simpa only [vaultModify, getAbstractFileByPath] using ih

lemma getAbstractFileByPath_vaultCreate (v : Vault) (path : String) :
    getAbstractFileByPath (vaultCreate v path) path = some (VaultEntry.file "") := by
  simp [vaultCreate, getAbstractFileByPath, List.lookup]

/-- C5: the persistence writer creates an empty file first when no
entity exists at the path and then fills it; it overwrites (not
appends) the content of an existing file without a notice; and when a
non-file entity occupies the path it emits a user-visible notice and
leaves the vault unchanged (the function is total: it never throws). -/
theorem writer_create_overwrite_notice (v : Vault) (path content : String) :
    (getAbstractFileByPath v path = none →
      getAbstractFileByPath (vaultCreate v path) path = some (VaultEntry.file "") ∧
      (writeToFile v path content).2 = none ∧
      getAbstractFileByPath (writeToFile v path content).1 path =
        some (VaultEntry.file content)) ∧
    (∀ c0, getAbstractFileByPath v path = some (VaultEntry.file c0) →
      (writeToFile v path content).2 = none ∧
      getAbstractFileByPath (writeToFile v path content).1 path =
        some (VaultEntry.file content)) ∧
    (getAbstractFileByPath v path = some VaultEntry.folder →
      (writeToFile v path content).1 = v ∧
      (writeToFile v path content).2 =
        some ("Could not update changelog at path: " ++ path)) := by
  refine ⟨?_, ?_, ?_⟩
  · intro h
    refine ⟨getAbstractFileByPath_vaultCreate v path, ?_, ?_⟩
    · simp [writeToFile, h]
    · simp [writeToFile, h, getAbstractFileByPath_vaultModify,
        getAbstractFileByPath_vaultCreate]
  · intro c0 h
    refine ⟨by simp [writeToFile, h], ?_⟩
    simp [writeToFile, h, getAbstractFileByPath_vaultModify]
  · intro h
    simp [writeToFile, h]

theorem writer_create_overwrite_notice_witness :
    getAbstractFileByPath [("dir", VaultEntry.folder)] "dir" = some VaultEntry.folder ∧
    (writeToFile [("dir", VaultEntry.folder)] "dir" "X").1 =
      [("dir", VaultEntry.folder)] ∧
    (writeToFile [("dir", VaultEntry.folder)] "dir" "X").2 =
      some ("Could not update changelog at path: " ++ "dir") :=
  have h : getAbstractFileByPath [("dir", VaultEntry.folder)] "dir" =
      some VaultEntry.folder := by decide
  ⟨h, ((writer_create_overwrite_notice [("dir", VaultEntry.folder)] "dir" "X").2.2 h).1,
    ((writer_create_overwrite_notice [("dir", VaultEntry.folder)] "dir" "X").2.2 h).2⟩

/-- C7: evaluating the auto-update machinery at the failing input:
load with `autoUpdate` on (the listeners get registered), then toggle
the setting off.  The stored setting is now `false`, yet the listeners
stay registered (nothing ever unregisters them and `onVaultChange`
does not consult `autoUpdate`), so a subsequent modify event for an
ordinary file still triggers the pipeline — contradicting the claim
that no future event triggers an automatic run and that the
subscriptions are revoked as a unit. -/
theorem toggle_off_still_triggers :
    (setAutoUpdateSetting (onloadPlugin { DEFAULT_SETTINGS with autoUpdate := true })
        false).settings.autoUpdate = false ∧
    (setAutoUpdateSetting (onloadPlugin { DEFAULT_SETTINGS with autoUpdate := true })
        false).vaultHandlers = 1 ∧
    autoTriggersUpdate
      (setAutoUpdateSetting (onloadPlugin { DEFAULT_SETTINGS with autoUpdate := true })
        false) fileA = true :=
  ⟨rfl, rfl, rfl⟩

/-! Helper lemmas about the debounce gate. -/

lemma gateRun_append (cp : String) (st : GateState) (a b : List (Option String)) :
    gateRun cp st (a ++ b) =
      ((gateRun cp (gateRun cp st a).1 b).1,
        (gateRun cp st a).2 + (gateRun cp (gateRun cp st a).1 b).2) := by
  induction a generalizing st with
  | nil => simp [gateRun]
  | cons e rest ih =>
      have h1 : (e :: rest) ++ b = e :: (rest ++ b) := rfl
      rw [h1]
      simp only [gateRun]
      rw [ih]
      simp [Nat.add_assoc]

lemma gateRun_quiet_idle (cp : String) (m : ℕ) :
    gateRun cp GateState.idle (List.replicate m none) = (GateState.idle, 0) := by
  induction m with
  | zero => rfl
  | succ m ih => simpa [List.replicate, gateRun, gateStep] using ih

lemma gateRun_quiet_hold (cp p : String) :
    ∀ (m k : ℕ), m ≤ k →
      gateRun cp (GateState.pending k p) (List.replicate m none) =
        (GateState.pending (k - m) p, 0) := by
  intro m
  induction m with
  | zero => intro k _; simp [gateRun]
  | succ m ih =>
      intro k h
      obtain ⟨k', rfl⟩ : ∃ k', k = k' + 1 := ⟨k - 1, by omega⟩
      have hstep : gateStep cp (GateState.pending (k' + 1) p) none =
          (GateState.pending k' p, false) := rfl
      simp only [List.replicate, gateRun, hstep]
      rw [ih k' (by omega)]
      simp [Nat.succ_sub_succ]

lemma gateRun_quiet_expire (cp p : String) :
    ∀ (m k : ℕ), k < m →
      gateRun cp (GateState.pending k p) (List.replicate m none) =
        (GateState.idle, if p != cp then 1 else 0) := by
  intro m
  induction m with
  | zero => intro k h; omega
  | succ m ih =>
      intro k h
      cases k with
      | zero =>
          have hstep : gateStep cp (GateState.pending 0 p) none =
              (GateState.idle, p != cp) := rfl
          simp only [List.replicate, gateRun, hstep]
          rw [gateRun_quiet_idle]
          cases hb : p != cp <;> simp [hb]
      | succ k' =>
          have hstep : gateStep cp (GateState.pending (k' + 1) p) none =
              (GateState.pending k' p, false) := rfl
          simp only [List.replicate, gateRun, hstep]
          rw [ih k' (by omega)]
          simp

lemma burstCore_run (cp : String) :
    ∀ (gaps : List (ℕ × String)) (tail : ℕ) (p : String),
      (∀ e ∈ gaps, e.1 < 200) → 200 ≤ tail →
      gateRun cp (GateState.pending 199 p) (burstCore gaps tail) =
        (GateState.idle, if lastEventPath p gaps != cp then 1 else 0) := by
  intro gaps
  induction gaps with
  | nil =>
      intro tail p _ ht
      exact gateRun_quiet_expire cp p tail 199 (by omega)
  | cons e rest ih =>
      intro tail p hg ht
      obtain ⟨g, q⟩ := e
      have hg1 : g < 200 := (hg (g, q) (List.mem_cons_self _ _))
      simp only [burstCore]
      rw [gateRun_append, gateRun_quiet_hold cp p g 199 (by omega)]
      have hstep : gateStep cp (GateState.pending (199 - g) p) (some q) =
          (GateState.pending 199 q, false) := rfl
      simp only [gateRun, hstep]
      rw [ih tail q (fun e he => hg e (List.mem_cons_of_mem _ he)) ht]
      simp [lastEventPath]

lemma lastEventPath_ne (cp : String) :
    ∀ (gaps : List (ℕ × String)) (p0 : String), p0 ≠ cp →
      (∀ e ∈ gaps, e.2 ≠ cp) → lastEventPath p0 gaps ≠ cp := by
  intro gaps
  induction gaps with
  | nil => intro p0 h0 _; exact h0
  | cons e rest ih =>
      intro p0 _ hg
      exact ih e.2 (hg e (List.mem_cons_self _ _))
        (fun e' he' => hg e' (List.mem_cons_of_mem _ he'))

/-- C6: a burst of N ≥ 1 qualifying events (each gap between
consecutive events below 200 ms, which covers every burst contained in
a 200 ms window, and each event's path different from the changelog
path) followed by a quiet stretch of at least 200 ms triggers exactly
one pipeline execution, and any event arriving while the gate is
pending re-arms the timer to the full 200 ms (199 remaining after the
event's own millisecond elapses), recording that event. -/
theorem debounce_burst_single_run (cp : String) (lead : ℕ) (p0 : String)
    (gaps : List (ℕ × String)) (tail : ℕ)
    (h0 : p0 ≠ cp) (hg : ∀ e ∈ gaps, e.1 < 200 ∧ e.2 ≠ cp) (ht : 200 ≤ tail) :
    (gateRun cp GateState.idle (burstTimeline lead p0 gaps tail)).2 = 1 ∧
    ∀ (n : ℕ) (q ev : String),
      gateStep cp (GateState.pending n q) (some ev) =
        (GateState.pending 199 ev, false) := by
  constructor
  · have hlast : lastEventPath p0 gaps ≠ cp :=
      lastEventPath_ne cp gaps p0 h0 (fun e he => (hg e he).2)
    rw [burstTimeline, gateRun_append, gateRun_quiet_idle]
    have hstep : gateStep cp GateState.idle (some p0) =
        (GateState.pending 199 p0, false) := rfl
    simp only [gateRun, hstep]
    rw [burstCore_run cp gaps tail p0 (fun e he => (hg e he).1) ht]
    simp [bne_iff_ne.mpr hlast]
  · intro n q ev
    rfl

theorem debounce_burst_single_run_witness :
    ("A.md" ≠ "Changelog.md" ∧
      (∀ e ∈ [((50 : ℕ), "B.md")], e.1 < 200 ∧ e.2 ≠ "Changelog.md") ∧
      200 ≤ 200) ∧
    ((gateRun "Changelog.md" GateState.idle
        (burstTimeline 0 "A.md" [((50 : ℕ), "B.md")] 200)).2 = 1 ∧
      ∀ (n : ℕ) (q ev : String),
        gateStep "Changelog.md" (GateState.pending n q) (some ev) =
          (GateState.pending 199 ev, false)) :=
  ⟨⟨by decide, by decide, by decide⟩,
    debounce_burst_single_run "Changelog.md" 0 "A.md" [((50 : ℕ), "B.md")] 200
      (by decide) (by decide) (by decide)⟩

set_option maxRecDepth 8192 in
/-- C8, counterexample: an event for the changelog file itself does
arm the gate (the path check of src/main.ts lines 126-130 sits inside
the debounced callback, so every `TFile` event re-arms the debounce),
and a burst whose last event is the changelog file produces no
pipeline execution at all — whereas the same burst without the
trailing changelog event produces one. -/
theorem changelog_event_gate_counterexample :
    gateStep "Changelog.md" GateState.idle (some "Changelog.md") =
      (GateState.pending 199 "Changelog.md", false) ∧
    (gateRun "Changelog.md" GateState.idle
        (burstTimeline 0 "A.md" [((50 : ℕ), "Changelog.md")] 300)).2 = 0 ∧
    (gateRun "Changelog.md" GateState.idle
        (burstTimeline 0 "A.md" [] 300)).2 = 1 := by
  refine ⟨rfl, by decide, by decide⟩

/-- C8, amended: an event for the changelog file never directly causes
a pipeline execution, but it arms/resets the gate exactly like any
other event; consequently a burst whose last surviving event is the
changelog file (gaps below 200 ms, quiet tail of at least 200 ms)
produces no pipeline execution at all, regardless of qualifying events
earlier in the burst. -/
theorem changelog_event_arms_gate_suppresses_burst (cp : String) (lead : ℕ)
    (p0 : String) (gaps : List (ℕ × String)) (tail : ℕ)
    (hg : ∀ e ∈ gaps, e.1 < 200) (ht : 200 ≤ tail)
    (hlast : lastEventPath p0 gaps = cp) :
    (gateRun cp GateState.idle (burstTimeline lead p0 gaps tail)).2 = 0 ∧
    ∀ (st : GateState) (ev : String),
      gateStep cp st (some ev) = (GateState.pending 199 ev, false) := by
  constructor
  · rw [burstTimeline, gateRun_append, gateRun_quiet_idle]
    have hstep : gateStep cp GateState.idle (some p0) =
        (GateState.pending 199 p0, false) := rfl
    simp only [gateRun, hstep]
    rw [burstCore_run cp gaps tail p0 hg ht]
    simp [hlast]
  · intro st ev
    rfl

theorem changelog_event_arms_gate_suppresses_burst_witness :
    ((∀ e ∈ ([] : List (ℕ × String)), e.1 < 200) ∧ 200 ≤ 200 ∧
      lastEventPath "Changelog.md" [] = "Changelog.md") ∧
    ((gateRun "Changelog.md" GateState.idle
        (burstTimeline 0 "Changelog.md" [] 200)).2 = 0 ∧
      ∀ (st : GateState) (ev : String),
        gateStep "Changelog.md" st (some ev) =
          (GateState.pending 199 ev, false)) :=
  ⟨⟨by simp, by decide, rfl⟩,
    changelog_event_arms_gate_suppresses_burst "Changelog.md" 0 "Changelog.md" [] 200
      (by simp) (by decide) rfl⟩

/-! The "Max recent files" settings handler. -/

/-- C9, counterexample: the string `"1.5"` is accepted by the handler
(`Number("1.5") = 1.5 ≥ 1`), and the stored `maxRecentFiles` becomes
the non-integer 3/2 — refuting the claim that after any accepted edit
the stored value is an integer. -/
theorem maxRecentFiles_accepts_non_integer :
    (maxRecentFilesOnChange 25 "1.5").2 = false ∧
    (maxRecentFilesOnChange 25 "1.5").1 = 3 / 2 ∧
    ((3 : ℚ) / 2).den ≠ 1 := by
  have hp : jsParseDec "1.5" = some (false, 1, 5, 1) := by decide
  refine ⟨?_, ?_, by norm_num [Rat.den]⟩
  · simp only [maxRecentFilesOnChange, jsNumber, hp, Option.map_some]
    norm_num [decValue]
  · simp only [maxRecentFilesOnChange, jsNumber, hp, Option.map_some]
    norm_num [decValue]

/-- C9, amended: a non-numeric value (`Number` gives `NaN`) or a value
below 1 is rejected: the displayed text is reverted to the stored
value and the stored setting is unchanged; after any accepted edit the
stored `maxRecentFiles` is a number ≥ 1 (not necessarily an
integer). -/
theorem maxRecentFiles_validation (stored : ℚ) (value : String) :
    (jsNumber value = none → maxRecentFilesOnChange stored value = (stored, true)) ∧
    (∀ q, jsNumber value = some q → q < 1 →
      maxRecentFilesOnChange stored value = (stored, true)) ∧
    (∀ q, jsNumber value = some q → 1 ≤ q →
      maxRecentFilesOnChange stored value = (q, false) ∧
        1 ≤ (maxRecentFilesOnChange stored value).1) := by
  refine ⟨?_, ?_, ?_⟩
  · intro h
    simp [maxRecentFilesOnChange, h]
  · intro q h hq
    simp [maxRecentFilesOnChange, h, hq]
  · intro q h hq
    have hres : maxRecentFilesOnChange stored value = (q, false) := by
      simp [maxRecentFilesOnChange, h, not_lt.mpr hq]
    exact ⟨hres, by rw [hres]; exact hq⟩

lemma jsNumber_three : jsNumber "3" = some 3 := by
  have hp : jsParseDec "3" = some (false, 3, 0, 0) := by decide
  simp only [jsNumber, hp, Option.map_some]
  norm_num [decValue]

lemma one_le_three_q : (1 : ℚ) ≤ 3 := by norm_num

theorem maxRecentFiles_validation_witness :
    (jsNumber "3" = some 3 ∧ (1 : ℚ) ≤ 3) ∧
    (maxRecentFilesOnChange 25 "3" = (3, false) ∧
      1 ≤ (maxRecentFilesOnChange 25 "3").1) :=
  ⟨⟨jsNumber_three, one_le_three_q⟩,
    (maxRecentFiles_validation 25 "3").2.2 3 jsNumber_three one_le_three_q⟩

end VaultChangelog
